import Mathlib

/-!
Verification development for the rs-proto schema compiler.

This file gives a shallow embedding, in Lean, of the scope-resolution and
deferred-emission engine of the repository:

* the parsed declaration tree (src/src/parser/types/mod.rs),
* the scope hierarchy with fully qualified identifiers
  (src/src/code_gen/dart.rs, ProtoTypeHierarchy / ProtoTypeHierarchyNode;
  the same construction appears in src/src/code_gen/env/proto_type_hierarchy.rs
  with a pluggable qualifier whose default is the dart.rs concatenation policy),
* identifier resolution
  (GeneratorEnvironment::resolve_proto_type_relative_to_context and
  resolve_identifier_path in src/src/code_gen/env/mod.rs, and the identical
  loop in GeneratorEnvironment::resolve_proto_type / resolve_identifier in
  src/src/code_gen/dart.rs),
* the deferred output queues and their flushing
  (flush_queued_outputs / flush_queued_outputs_deep in env/mod.rs and
  flush_queued_ops / flush_queued_ops_deep in dart.rs),
* the Dart code generator pipeline (DartCodeGenerator::gen_code in dart.rs).

Modelling conventions:

* Rust `Rc<RefCell<ProtoTypeHierarchyNode>>` references with parent
  back-pointers are represented by ancestor chains: a context is the list
  `[current node, parent, ..., root]`; walking to the parent is taking the
  tail.  The hierarchy itself is an immutable tree.
* Rust panics (`panic!`, `.expect`, `.unwrap`) are modelled as `none`:
  a `none` result of a whole-pipeline function means the generation run
  aborted with no output.
* Queued closures in dart.rs are always of the single shape
  `move |env| Ok(format!("\n\n{}", Self::gen_type(&proto_type, env)?))`
  (dart.rs:342-344), so a queued op is represented by the captured
  `ProtoType` and running it is `"\n\n" ++ gen_type`.
-/

set_option maxRecDepth 8000

namespace RsProto

/-- One enum member (parser ProtoEnumValue: name, options, position).
The `options` field is omitted: it is never read by the code generator. -/
structure ProtoEnumValue where
  name : String
  position : Nat
deriving DecidableEq

mutual
/-- Parser ProtoFieldType.  The dart.rs generator matches the variant
`ProtoFieldType::Identifier(&str)` (dart.rs:374), a plain string holding the
whole (possibly dotted) reference, modelled here as `identifier`. -/
inductive ProtoFieldType where
  | identifier (id : String)
  | primitive (p : ProtoPrimitiveType)
deriving DecidableEq
/-- Parser ProtoPrimitiveType: int32, int64, str, boolean, map. -/
inductive ProtoPrimitiveType where
  | int32
  | int64
  | str
  | boolean
  | map (key value : ProtoFieldType)
deriving DecidableEq
end

/-- Parser ProtoMessageFieldModifier. -/
inductive ProtoMessageFieldModifier where
  | required
  | optional
  | repeated
deriving DecidableEq

/-- Parser ProtoMessageField (modifier, field_type, name, options, position);
`options` omitted: never read by the code generator. -/
structure ProtoMessageField where
  modifier : Option ProtoMessageFieldModifier
  fieldType : ProtoFieldType
  name : String
  position : Nat
deriving DecidableEq

/-- Parser ProtoType: a named message (with fields and nested types, in
declaration order) or a named enum (with ordered values). -/
inductive ProtoType where
  | message (name : String) (fields : List ProtoMessageField) (types : List ProtoType)
  | enum (name : String) (values : List ProtoEnumValue)

/-- ProtoType::get_name (parser/types/mod.rs:8-13). -/
def ProtoType.getName : ProtoType → String
  | .message n _ _ => n
  | .enum n _ => n

mutual
/-- Structural equality of ProtoType, mirroring the derived PartialEq used by
`find_type_node` (dart.rs:63). -/
def ProtoType.beq : ProtoType → ProtoType → Bool
  | .message n₁ f₁ t₁, .message n₂ f₂ t₂ => n₁ == n₂ && f₁ == f₂ && ProtoType.beqList t₁ t₂
  | .enum n₁ v₁, .enum n₂ v₂ => n₁ == n₂ && v₁ == v₂
  | _, _ => false
/-- Pointwise `ProtoType.beq` on lists (derived PartialEq of Vec). -/
def ProtoType.beqList : List ProtoType → List ProtoType → Bool
  | [], [] => true
  | t₁ :: r₁, t₂ :: r₂ => ProtoType.beq t₁ t₂ && ProtoType.beqList r₁ r₂
  | _, _ => false
end

/-- Parser Program (src, syntax, package, imports, options, types).  Only
`types` is ever read by the code-generation pipeline; `src` and `package`
are kept to show that the output depends on `types` alone, the remaining
fields are omitted. -/
structure Program where
  src : String
  package : Option String
  types : List ProtoType

/-- ProtoIdentifierPath::get_path_parts (parser/types/mod.rs:28-33):
split the dotted path on the dot character. -/
def getPathParts (path : String) : List String :=
  path.splitOn "."

/-- A node of the scope hierarchy (ProtoTypeHierarchyNode, dart.rs:79-91 and
env/proto_type_hierarchy_node.rs:7-19): the optional declaration it
represents (`none` only at the synthetic root), the optional fully qualified
identifier (`none` only at the root) and the child nodes in declaration
order.  The Rust parent back-pointer is not stored; everywhere a node is
used as a resolution context it is paired with its ancestor chain. -/
inductive HNode where
  | mk (protoType : Option ProtoType) (fqn : Option String) (children : List HNode)

/-- The declaration stored at a node. -/
def HNode.protoTypeOf : HNode → Option ProtoType
  | .mk pt _ _ => pt

/-- The fully qualified identifier stored at a node. -/
def HNode.fqnOf : HNode → Option String
  | .mk _ f _ => f

/-- The children of a node, in declaration order. -/
def HNode.childrenOf : HNode → List HNode
  | .mk _ _ cs => cs

/-- The local (declaration) name of a node, if it has a declaration. -/
def HNode.nameOf (n : HNode) : Option String :=
  n.protoTypeOf.map ProtoType.getName

/-- The default naming policy (dart.rs ProtoTypeHierarchyNode::new, lines
130-137): parent fully-qualified identifier, separator, local name; the
local name alone when the parent has no fully qualified identifier. -/
def qualifyDefault : Option String → String → String
  | some parentFqn, name => parentFqn ++ "_" ++ name
  | none, name => name

mutual
/-- ProtoTypeHierarchyNode::new (dart.rs:126-158): build the node of a
declaration given the parent's fully qualified identifier, computing this
node's identifier with the default policy and then building children for a
message's nested types (an enum gets no children). -/
def HNode.build (parentFqn : Option String) : ProtoType → HNode
  | .message n fs ts =>
    HNode.mk (some (.message n fs ts)) (some (qualifyDefault parentFqn n))
      (HNode.buildList (some (qualifyDefault parentFqn n)) ts)
  | .enum n vs =>
    HNode.mk (some (.enum n vs)) (some (qualifyDefault parentFqn n)) []
/-- Children of a node: one hierarchy node per nested declaration, in order. -/
def HNode.buildList (parentFqn : Option String) : List ProtoType → List HNode
  | [] => []
  | t :: ts => HNode.build parentFqn t :: HNode.buildList parentFqn ts
end

/-- ProtoTypeHierarchy::from_program (dart.rs:39-49): a synthetic root with
no declaration and no fully qualified identifier, whose children are the
nodes of the top-level declarations in order. -/
def hierarchyOf (prog : Program) : HNode :=
  HNode.mk none none (HNode.buildList none prog.types)

/-- Descend from a node along a list of child indices. -/
def nodeAt : HNode → List Nat → Option HNode
  | n, [] => some n
  | n, i :: p => match (HNode.childrenOf n).get? i with
    | some c => nodeAt c p
    | none => none

/-- The ancestor chain (current node first, root last) of the node reached
from `n` (whose own ancestor chain above it is `up`) along child indices. -/
def chainOf (n : HNode) (up : List HNode) : List Nat → Option (List HNode)
  | [] => some (n :: up)
  | i :: p => match (HNode.childrenOf n).get? i with
    | some c => chainOf c (n :: up) p
    | none => none

/-- The chain property of a context: consecutive elements are child and
parent, and the last element is the hierarchy root. -/
def IsChainTo (root : HNode) : List HNode → Prop
  | [] => False
  | [n] => n = root
  | n :: m :: rest => n ∈ HNode.childrenOf m ∧ IsChainTo root (m :: rest)

/-- The child-scanning step of the resolution loop (env/mod.rs:112-118,
dart.rs:232-238): the first child whose declaration's local name equals the
identifier. -/
def findChildNamed (identifier : String) : List HNode → Option HNode
  | [] => none
  | c :: cs =>
    if HNode.nameOf c = some identifier then some c else findChildNamed identifier cs

/-- GeneratorEnvironment::resolve_proto_type_relative_to_context
(env/mod.rs:101-126); the identical loop is the whole body of
GeneratorEnvironment::resolve_proto_type in dart.rs:217-246.  The context is
the ancestor chain of the current search node.  At each node: if the node's
own declaration is named like the identifier, return the node; otherwise
scan the node's children for the name; otherwise move to the parent.  At the
root (no parent) the walk returns `none`. -/
def resolveRelativeToContext (identifier : String) : List HNode → Option (List HNode)
  | [] => none
  | node :: up =>
    if HNode.nameOf node = some identifier then some (node :: up)
    else
      match findChildNamed identifier (HNode.childrenOf node) with
      | some c => some (c :: node :: up)
      | none => resolveRelativeToContext identifier up

/-- The step function of the fold in GeneratorEnvironment::resolve_proto_type
(env/mod.rs:80-96): the accumulator is `none` before the first segment,
`some none` right after a failed segment, `some (some context)` after a
match.  On a `some none` accumulator the Rust arm (env/mod.rs:89) returns
the **outer** None, so the segment after next re-enters the `none` arm and
restarts resolution from the starting context `ctx` (self.type_context). -/
def resolveFoldStep (ctx : List HNode) (acc : Option (Option (List HNode)))
    (identifier : String) : Option (Option (List HNode)) :=
  match acc with
  | none => some (resolveRelativeToContext identifier ctx)
  | some none => none
  | some (some c) => some (resolveRelativeToContext identifier c)

/-- GeneratorEnvironment::resolve_proto_type (env/mod.rs:74-99) on the list
of path segments: fold every segment through the relative resolver, then
`.unwrap()` the accumulator.  The unwrap panics when the final accumulator
is the outer None (an empty segment list, or a segment failure consumed by
the last segment); a final `some none` is the recoverable None return,
which resolve_identifier_path in turn treats as fatal.  Both failures are
`none` here, matching the panic-as-none convention. -/
def EnvMod.resolveProtoTypeParts (ctx : List HNode) (parts : List String) :
    Option (List HNode) :=
  (parts.foldl (resolveFoldStep ctx) none).getD none

/-- GeneratorEnvironment::resolve_proto_type on a dotted path
(env/mod.rs:74-99 with get_path_parts). -/
def EnvMod.resolveProtoType (ctx : List HNode) (path : String) : Option (List HNode) :=
  EnvMod.resolveProtoTypeParts ctx (getPathParts path)

/-- The fully qualified identifier of the node a resolution returned. -/
def resolvedFqnOf (r : Option (List HNode)) : Option String :=
  (r.bind List.head?).bind HNode.fqnOf

/-- GeneratorEnvironment::resolve_identifier_path (env/mod.rs:128-144):
resolve the path and return the resolved node's fully qualified identifier;
resolution failure is a panic (`none` here), as is a missing identifier on
the resolved node. -/
def EnvMod.resolveIdentifierPath (ctx : List HNode) (path : String) : Option String :=
  resolvedFqnOf (EnvMod.resolveProtoType ctx path)

/-- GeneratorEnvironment::resolve_proto_type of dart.rs (lines 217-246): the
entire identifier string, dots included, is handed to the upward-walking
loop; the path is never split into segments (see the TODO comment at
dart.rs:221-223). -/
def Dart.resolveProtoType (ctx : List HNode) (identifier : String) :
    Option (List HNode) :=
  resolveRelativeToContext identifier ctx

/-- GeneratorEnvironment::resolve_identifier of dart.rs (lines 248-264):
resolve the whole identifier string and return the fully qualified
identifier; failure panics (`none` here). -/
def Dart.resolveIdentifier (ctx : List HNode) (identifier : String) : Option String :=
  resolvedFqnOf (Dart.resolveProtoType ctx identifier)

/-- GeneratorEnvironment of env/mod.rs (lines 13-29): the context node (as
its ancestor chain), the ordered queue of deferred output strings, and the
child environments in creation order.  The `program` and `type_hierarchy`
fields are read-only references never touched by the queueing or flushing
code and are not part of this model. -/
inductive EnvMod.GeneratorEnvironment where
  | mk (typeContext : List HNode) (queuedOutputs : List String)
      (children : List EnvMod.GeneratorEnvironment)

/-- The queued outputs of an environment. -/
def EnvMod.queuedOutputsOf : EnvMod.GeneratorEnvironment → List String
  | .mk _ q _ => q

/-- The child environments of an environment. -/
def EnvMod.childrenOf : EnvMod.GeneratorEnvironment → List EnvMod.GeneratorEnvironment
  | .mk _ _ cs => cs

/-- GeneratorEnvironment::queue_output (env/mod.rs:146-148): push onto the
end of this environment's own queue. -/
def EnvMod.queueOutput (e : EnvMod.GeneratorEnvironment) (output : String) :
    EnvMod.GeneratorEnvironment :=
  match e with
  | .mk ctx q cs => .mk ctx (q ++ [output]) cs

/-- GeneratorEnvironment::flush_queued_outputs (env/mod.rs:150-152):
`self.queued_outputs.drain(0..).collect()` returns the queued outputs
front-to-back and leaves the queue empty. -/
def EnvMod.flushQueuedOutputs (e : EnvMod.GeneratorEnvironment) :
    List String × EnvMod.GeneratorEnvironment :=
  match e with
  | .mk ctx q cs => (q, .mk ctx [] cs)

mutual
/-- GeneratorEnvironment::flush_queued_outputs_deep (env/mod.rs:154-163):
the locally flushed outputs (draining this environment's queue) chained with
the deep flush of every child, in child order.  The drain leaves the queue
empty and does not touch the children, so the children flushed are the
environment's own. -/
def EnvMod.flushQueuedOutputsDeep (e : EnvMod.GeneratorEnvironment) :
    List String × EnvMod.GeneratorEnvironment :=
  match e with
  | .mk ctx q cs =>
    match EnvMod.flushDeepChildren cs with
    | (rs, cs₁) =>
      ((EnvMod.flushQueuedOutputs (.mk ctx q cs)).fst ++ rs, .mk ctx [] cs₁)
/-- The `flat_map` over children inside flush_queued_outputs_deep
(env/mod.rs:157-161), threading each child's post-flush state. -/
def EnvMod.flushDeepChildren : List EnvMod.GeneratorEnvironment →
    List String × List EnvMod.GeneratorEnvironment
  | [] => ([], [])
  | c :: cs =>
    match EnvMod.flushQueuedOutputsDeep c with
    | (r, c₁) =>
      match EnvMod.flushDeepChildren cs with
      | (rs, cs₁) => (r ++ rs, c₁ :: cs₁)
end

mutual
/-- ProtoTypeHierarchy::find_type_node_rec (dart.rs:58-76) returning the
found node's ancestor chain: if this node's declaration equals the wanted
one structurally, this node; otherwise the first hit in a depth-first scan
of the children. -/
def findTypeNodeFrom (t : ProtoType) (node : HNode) (up : List HNode) :
    Option (List HNode) :=
  match node with
  | .mk pt f cs =>
    if (match pt with | some pt₀ => ProtoType.beq pt₀ t | none => false)
    then some (HNode.mk pt f cs :: up)
    else findTypeNodeList t cs (HNode.mk pt f cs :: up)
/-- Depth-first scan of a child list for find_type_node_rec (dart.rs:68-73). -/
def findTypeNodeList (t : ProtoType) : List HNode → List HNode → Option (List HNode)
  | [], _ => none
  | c :: cs, up =>
    match findTypeNodeFrom t c up with
    | some r => some r
    | none => findTypeNodeList t cs up
end

/-- ProtoTypeHierarchy::find_type_node (dart.rs:51-56): depth-first search
from the hierarchy head. -/
def findTypeNode (root : HNode) (t : ProtoType) : Option (List HNode) :=
  findTypeNodeFrom t root []

/-- GeneratorEnvironment of dart.rs (lines 161-174): context chain, queue of
deferred ops (each op is the ProtoType captured by the queued closure, see
the file header), children in creation order. -/
inductive Dart.GenEnv where
  | mk (typeContext : List HNode) (queuedOps : List ProtoType)
      (children : List Dart.GenEnv)

/-- The context chain of a dart.rs environment. -/
def Dart.typeContextOf : Dart.GenEnv → List HNode
  | .mk ctx _ _ => ctx

/-- The queued ops of a dart.rs environment. -/
def Dart.queuedOpsOf : Dart.GenEnv → List ProtoType
  | .mk _ q _ => q

/-- The children of a dart.rs environment. -/
def Dart.childrenOf : Dart.GenEnv → List Dart.GenEnv
  | .mk _ _ cs => cs

/-- GeneratorEnvironment::queue_op (dart.rs:266-268): push onto the end of
this environment's own op queue. -/
def Dart.queueOp (e : Dart.GenEnv) (op : ProtoType) : Dart.GenEnv :=
  match e with
  | .mk ctx q cs => .mk ctx (q ++ [op]) cs

/-- GeneratorEnvironment::get_fully_qualified_identifier (dart.rs:210-215):
the fully qualified identifier of the context node. -/
def Dart.getFullyQualifiedIdentifier (e : Dart.GenEnv) : Option String :=
  (Dart.typeContextOf e).head?.bind HNode.fqnOf

/-- Rust char::to_lowercase restricted to ASCII (the only characters the
generator meets in identifiers). -/
def lowerChar (c : Char) : Char :=
  if 65 ≤ c.toNat ∧ c.toNat ≤ 90 then Char.ofNat (c.toNat + 32) else c

/-- Rust char::to_uppercase (first element) restricted to ASCII. -/
def upperChar (c : Char) : Char :=
  if 97 ≤ c.toNat ∧ c.toNat ≤ 122 then Char.ofNat (c.toNat - 32) else c

/-- utils::camel_case on the lowercased character stream: a normal character
is kept, an underscore uppercases the following character (a trailing
underscore is dropped).  src/src/utils/mod.rs:5-29 defines this for the
ScreamingSnakeCase variant; dart.rs:363 also applies it to a SnakeCase
variant that is absent from src/src/utils/mod.rs, with the same lowering
algorithm (lowercasing first makes the two variants coincide). -/
def camelCaseChars : List Char → List Char
  | [] => []
  | '_' :: [] => []
  | '_' :: c :: rest => upperChar c :: camelCaseChars rest
  | c :: rest => c :: camelCaseChars rest

/-- utils::camel_case: lowercase the string, then fold underscores into
uppercased following characters. -/
def camelCase (s : String) : String :=
  String.mk (camelCaseChars (s.data.map lowerChar))

/-- Decimal digits of a number, most significant first (fuel-bounded; the
fuel argument only needs to exceed the number of digits). -/
def natDigits : Nat → Nat → List Char
  | 0, _ => []
  | _ + 1, 0 => []
  | fuel + 1, n => natDigits fuel (n / 10) ++ [Char.ofNat (48 + n % 10)]

/-- Rust display formatting of an unsigned integer (format with empty
options), as used for the enum value position. -/
def natDecimal (n : Nat) : String :=
  if n = 0 then "0" else String.mk (natDigits (n + 1) n)

mutual
/-- DartCodeGenerator::get_dart_type (dart.rs:369-386): an identifier field
type resolves through the environment (a panic there is `none`); primitives
map to Dart names. -/
def Dart.getDartType (ctx : List HNode) : ProtoFieldType → Option String
  | .identifier id => Dart.resolveIdentifier ctx id
  | .primitive p => Dart.getDartPrimitive ctx p
/-- The primitive arm of get_dart_type (dart.rs:375-384). -/
def Dart.getDartPrimitive (ctx : List HNode) : ProtoPrimitiveType → Option String
  | .int32 => some "int"
  | .int64 => some "int"
  | .boolean => some "bool"
  | .str => some "String"
  | .map k v =>
    match Dart.getDartType ctx k, Dart.getDartType ctx v with
    | some ks, some vs => some ("Map<" ++ ks ++ ", " ++ vs ++ ">")
    | _, _ => none
end

/-- DartCodeGenerator::gen_message_field (dart.rs:350-367): indentation,
Dart type, space, camel-cased field name, semicolon. -/
def Dart.genMessageField (ctx : List HNode) (field : ProtoMessageField)
    (indent : Nat) : Option String :=
  (Dart.getDartType ctx field.fieldType).map
    (fun ty => "".pushn '\t' indent ++ ty ++ " " ++ camelCase field.name ++ ";")

/-- The field loop of gen_message (dart.rs:325-331): each line is the inner
indentation, the generated field, and a newline; the first failing field
aborts the message. -/
def Dart.genFieldLines (ctx : List HNode) (indent : Nat) :
    List ProtoMessageField → Option (List String)
  | [] => some []
  | f :: fs =>
    match Dart.genMessageField ctx f (indent + 1) with
    | none => none
    | some s =>
      match Dart.genFieldLines ctx indent fs with
      | none => none
      | some rest => some (("".pushn '\t' indent ++ s ++ "\n") :: rest)

/-- The nested-type loop of gen_message (dart.rs:336-345): for every nested
type, a fresh child environment bound to the nested type's hierarchy node
(GeneratorEnvironment::new_child, dart.rs:188-208; a failed find_type_node
panics, modelled `none`) carrying the one queued op for that type. -/
def Dart.mkQueuedChildren (root : HNode) : List ProtoType → Option (List Dart.GenEnv)
  | [] => some []
  | t :: ts =>
    match findTypeNode root t with
    | none => none
    | some chain =>
      match Dart.mkQueuedChildren root ts with
      | none => none
      | some rest => some (Dart.GenEnv.mk chain [t] [] :: rest)

/-- DartCodeGenerator::gen_message (dart.rs:309-348): emit the class header
(named by the environment's fully qualified identifier, whose absence is an
`expect` panic), the field lines, and the closing brace; queue one op per
nested type in a fresh child environment.  Note dart.rs:317 computes the
field-line indentation as `indent`, not `indent + 1`. -/
def Dart.genMessage (root : HNode) (fields : List ProtoMessageField)
    (types : List ProtoType) (env : Dart.GenEnv) (indent : Nat) :
    Option (String × Dart.GenEnv) :=
  match Dart.getFullyQualifiedIdentifier env with
  | none => none
  | some messageName =>
    match Dart.genFieldLines (Dart.typeContextOf env) indent fields with
    | none => none
    | some fieldLines =>
      match Dart.mkQueuedChildren root types with
      | none => none
      | some newKids =>
        match env with
        | .mk ctx ops cs =>
          some ("".pushn '\t' indent ++ "class " ++ messageName ++ " \x7b\n"
              ++ String.join fieldLines ++ "".pushn '\t' indent ++ "\x7d",
            .mk ctx ops (cs ++ newKids))

/-- DartCodeGenerator::gen_enum_value (dart.rs:441-457). -/
def Dart.genEnumValue (enumName : String) (v : ProtoEnumValue) (indent : Nat) : String :=
  "".pushn '\t' indent ++ "static " ++ enumName ++ " " ++ camelCase v.name
    ++ " = " ++ enumName ++ "._(" ++ natDecimal v.position ++ ", \"" ++ v.name ++ "\");"

/-- DartCodeGenerator::gen_all_enum_values_list (dart.rs:459-483). -/
def Dart.genAllEnumValuesList (enumName : String) (values : List ProtoEnumValue)
    (indent : Nat) : String :=
  "".pushn '\t' indent ++ "static List<" ++ enumName ++ "> values = [\n"
    ++ String.intercalate ",\n"
        (values.map (fun v => "".pushn '\t' (indent + 1) ++ camelCase v.name))
    ++ "\n" ++ "".pushn '\t' indent ++ "];"

/-- DartCodeGenerator::gen_enum_ctor (dart.rs:485-502). -/
def Dart.genEnumCtor (enumName : String) (indent : Nat) : String :=
  "".pushn '\t' indent ++ enumName ++ "._(int position, String name) \x7b\n"
    ++ "".pushn '\t' (indent + 1) ++ "this.position = position;\n"
    ++ "".pushn '\t' (indent + 1) ++ "this.name = name;\n"
    ++ "".pushn '\t' indent ++ "\x7d"

/-- DartCodeGenerator::gen_enum_body (dart.rs:417-439): one line per value,
then the values list, then the constructor. -/
def Dart.genEnumBody (enumName : String) (values : List ProtoEnumValue)
    (indent : Nat) : String :=
  String.join (values.map (fun v => Dart.genEnumValue enumName v indent ++ "\n"))
    ++ "\n" ++ Dart.genAllEnumValuesList enumName values indent
    ++ "\n\n" ++ Dart.genEnumCtor enumName indent

/-- DartCodeGenerator::gen_enum (dart.rs:388-415): class header extending
ProtobufEnum (named by the environment's fully qualified identifier, whose
absence is an `expect` panic), the body at indent + 1, the closing brace. -/
def Dart.genEnum (values : List ProtoEnumValue) (env : Dart.GenEnv)
    (indent : Nat) : Option String :=
  match Dart.getFullyQualifiedIdentifier env with
  | none => none
  | some enumName =>
    some ("".pushn '\t' indent ++ "class " ++ enumName ++ " extends "
        ++ "ProtobufEnum" ++ " \x7b\n"
      ++ Dart.genEnumBody enumName values (indent + 1)
      ++ "\n" ++ "".pushn '\t' indent ++ "\x7d")

/-- DartCodeGenerator::gen_type (dart.rs:298-307): dispatch on the
declaration kind at indent 0.  An enum leaves the environment unchanged. -/
def Dart.genType (root : HNode) (t : ProtoType) (env : Dart.GenEnv) :
    Option (String × Dart.GenEnv) :=
  match t with
  | .message _ fs ts => Dart.genMessage root fs ts env 0
  | .enum _ vs => (Dart.genEnum vs env 0).map (fun s => (s, env))

/-- Run a drained op list front-to-back against the flushing environment
(the body of the while-pop loop, dart.rs:273-277): each op is
`"\n\n" ++ gen_type` of its captured type. -/
def Dart.runOps (root : HNode) : List ProtoType → Dart.GenEnv →
    Option (List String × Dart.GenEnv)
  | [], env => some ([], env)
  | t :: ts, env =>
    match Dart.genType root t env with
    | none => none
    | some (s, env₁) =>
      match Dart.runOps root ts env₁ with
      | none => none
      | some (rs, env₂) => some (("\n\n" ++ s) :: rs, env₂)

/-- GeneratorEnvironment::flush_queued_ops (dart.rs:270-280): repeatedly
`pop()` an op from the back of this environment's own queue and run it with
this environment, collecting the results.  Popping from the back means the
ops run in reverse registration order; the loop ends with the queue empty.
Running an op never touches the flushing environment's own queue (gen_message
queues only into freshly created children), so draining the whole queue
up-front and running it back-to-front is the same computation. -/
def Dart.flushQueuedOps (root : HNode) (env : Dart.GenEnv) :
    Option (List String × Dart.GenEnv) :=
  match env with
  | .mk ctx ops cs => Dart.runOps root ops.reverse (.mk ctx [] cs)

/-- The child loop of flush_queued_ops_deep (dart.rs:285-287) with the deep
flush for one child supplied as `f`, threading each child's new state. -/
def Dart.flushDeepChildren (f : Dart.GenEnv → Option (List String × Dart.GenEnv)) :
    List Dart.GenEnv → Option (List String × List Dart.GenEnv)
  | [] => some ([], [])
  | c :: cs =>
    match f c with
    | none => none
    | some (r, c₁) =>
      match Dart.flushDeepChildren f cs with
      | none => none
      | some (rs, cs₁) => some (r ++ rs, c₁ :: cs₁)

/-- GeneratorEnvironment::flush_queued_ops_deep (dart.rs:282-290): flush the
environment's own ops, then deep-flush every child (including children the
own ops just created), extending the results in child order.  Recursion is
fuel-bounded; the fuel only needs to exceed the nesting depth of the queued
declarations, and running out of fuel is `none`. -/
def Dart.flushQueuedOpsDeep (root : HNode) : Nat → Dart.GenEnv →
    Option (List String × Dart.GenEnv)
  | 0, _ => none
  | fuel + 1, env =>
    match Dart.flushQueuedOps root env with
    | none => none
    | some (outs, env₁) =>
      match env₁ with
      | .mk ctx ops cs =>
        match Dart.flushDeepChildren (Dart.flushQueuedOpsDeep root fuel) cs with
        | none => none
        | some (rs, cs₁) => some (outs ++ rs, .mk ctx ops cs₁)

/-- The top-level loop of gen_code (dart.rs:517-522): for each top-level
declaration, a child environment bound to its hierarchy node
(new_child, panicking if find_type_node fails) in which the declaration is
generated; the generated child (holding the queued ops for its nested
types) is appended to the root environment's children. -/
def Dart.genTopLevel (root : HNode) : List ProtoType → Dart.GenEnv →
    Option (List String × Dart.GenEnv)
  | [], env => some ([], env)
  | t :: ts, env =>
    match findTypeNode root t with
    | none => none
    | some chain =>
      match Dart.genType root t (Dart.GenEnv.mk chain [] []) with
      | none => none
      | some (s, childEnv) =>
        match env with
        | .mk ctx ops cs =>
          match Dart.genTopLevel root ts (.mk ctx ops (cs ++ [childEnv])) with
          | none => none
          | some (rs, env₁) => some (s :: rs, env₁)

/-- DartCodeGenerator::gen_code (dart.rs:506-528) after parsing, as the list
of emitted units: the top-level class bodies in declaration order, then the
deep flush of the root environment (gen_code builds the hierarchy, a root
environment whose context is the hierarchy head, generates every top-level
type, and extends the result with flush_queued_ops_deep). -/
def Dart.genCodeUnits (fuel : Nat) (prog : Program) : Option (List String) :=
  match Dart.genTopLevel (hierarchyOf prog) prog.types
      (Dart.GenEnv.mk [hierarchyOf prog] [] []) with
  | none => none
  | some (tops, env) =>
    match Dart.flushQueuedOpsDeep (hierarchyOf prog) fuel env with
    | none => none
    | some (flushed, _) => some (tops ++ flushed)

/-- DartCodeGenerator::gen_code (dart.rs:506-528): the emitted units joined
with the empty separator (`result.join("")`). -/
def Dart.genCode (fuel : Nat) (prog : Program) : Option String :=
  (Dart.genCodeUnits fuel prog).map String.join

/-! Concrete instances used by the theorems below. -/

/-- The claim C1 schema: message Foo containing message Bar (containing enum
Baz) and enum Qux. -/
def fooSchema : Program :=
  { src := "nested", package := none,
    types := [.message "Foo" [] [.message "Bar" [] [.enum "Baz" []], .enum "Qux" []]] }

/-- The unit emitted for Foo. -/
def fooUnit1 : String := "class Foo \x7b\n\x7d"

/-- The unit emitted for Foo_Bar. -/
def fooUnit2 : String := "\n\nclass Foo_Bar \x7b\n\x7d"

/-- The unit emitted for Foo_Bar_Baz. -/
def fooUnit3 : String :=
  "\n\nclass Foo_Bar_Baz extends ProtobufEnum \x7b\n\n\tstatic List<Foo_Bar_Baz> values = [\n\n\t];\n\n\tFoo_Bar_Baz._(int position, String name) \x7b\n\t\tthis.position = position;\n\t\tthis.name = name;\n\t\x7d\n\x7d"

/-- The unit emitted for Foo_Qux. -/
def fooUnit4 : String :=
  "\n\nclass Foo_Qux extends ProtobufEnum \x7b\n\n\tstatic List<Foo_Qux> values = [\n\n\t];\n\n\tFoo_Qux._(int position, String name) \x7b\n\t\tthis.position = position;\n\t\tthis.name = name;\n\t\x7d\n\x7d"

/-- A one-enum program whose hierarchy hosts the claim C2 environment. -/
def c2prog : Program := { src := "c2", package := none, types := [.enum "Z" []] }

/-- Hierarchy head for the claim C2 environment. -/
def c2root : HNode := hierarchyOf c2prog

/-- Context chain of the claim C2 environment: the node of enum Z. -/
def c2ctx : List HNode := [HNode.build none (.enum "Z" []), c2root]

/-- First registered op for claim C2: an enum with one value. -/
def c2op1 : ProtoType := .enum "A" [{ name := "VALUE_ONE", position := 0 }]

/-- Second registered op for claim C2: an enum with no values. -/
def c2op2 : ProtoType := .enum "B" []

/-- An environment with two ops registered via queue_op, first c2op1 then
c2op2. -/
def c2env : Dart.GenEnv :=
  List.foldl Dart.queueOp (Dart.GenEnv.mk c2ctx [] []) [c2op1, c2op2]

/-- Output of running c2op1 (the enum with one value) in the c2 context. -/
def c2outOp1 : String :=
  "\n\nclass Z extends ProtobufEnum \x7b\n\tstatic Z valueOne = Z._(0, \"VALUE_ONE\");\n\n\tstatic List<Z> values = [\n\t\tvalueOne\n\t];\n\n\tZ._(int position, String name) \x7b\n\t\tthis.position = position;\n\t\tthis.name = name;\n\t\x7d\n\x7d"

/-- Output of running c2op2 (the valueless enum) in the c2 context. -/
def c2outOp2 : String :=
  "\n\nclass Z extends ProtobufEnum \x7b\n\n\tstatic List<Z> values = [\n\n\t];\n\n\tZ._(int position, String name) \x7b\n\t\tthis.position = position;\n\t\tthis.name = name;\n\t\x7d\n\x7d"

/-- Claim C3 witness program: deep nesting plus a top-level enum Top. -/
def c3prog : Program :=
  { src := "c3", package := none,
    types := [.message "Foo" [] [.message "Bar" [] [.message "Inner" [] []]],
      .enum "Top" []] }

/-- Context chain of the claim C3 witness: the node Foo_Bar_Inner with its
ancestors. -/
def c3ctx : List HNode :=
  [HNode.build (some "Foo_Bar") (.message "Inner" [] []),
    HNode.build (some "Foo") (.message "Bar" [] [.message "Inner" [] []]),
    HNode.build none (.message "Foo" [] [.message "Bar" [] [.message "Inner" [] []]]),
    hierarchyOf c3prog]

/-- Claim C4 witness program: message A containing B and C, and a distinct
top-level message also named B. -/
def c4prog : Program :=
  { src := "c4", package := none,
    types := [.message "A" [] [.message "B" [] [], .message "C" [] []],
      .message "B" [] []] }

/-- The node of the nested message A.B (the sibling to be found). -/
def c4nodeAB : HNode := HNode.build (some "A") (.message "B" [] [])

/-- The node of the nested message A.C (the current scope). -/
def c4nodeC : HNode := HNode.build (some "A") (.message "C" [] [])

/-- The node of the top-level message A. -/
def c4nodeA : HNode :=
  HNode.build none (.message "A" [] [.message "B" [] [], .message "C" [] []])

/-- Context chain of the claim C4 witness: inside A.C. -/
def c4ctx : List HNode := [c4nodeC, c4nodeA, hierarchyOf c4prog]

/-- Claim C5 counterexample program: message Foo containing message B. -/
def c5prog : Program :=
  { src := "c5", package := none, types := [.message "Foo" [] [.message "B" [] []]] }

/-- The node of the top-level message Foo (the enclosing ancestor). -/
def c5nodeFoo : HNode := HNode.build none (.message "Foo" [] [.message "B" [] []])

/-- The node of the nested message Foo.B (the current scope). -/
def c5nodeB : HNode := HNode.build (some "Foo") (.message "B" [] [])

/-- Context chain of the claim C5 counterexample: inside Foo.B. -/
def c5ctx : List HNode := [c5nodeB, c5nodeFoo, hierarchyOf c5prog]

/-- Claim C6 counterexample program: two top-level messages A and B, A with
no nested types. -/
def c6prog : Program :=
  { src := "c6", package := none, types := [.message "A" [] [], .message "B" [] []] }

/-- The node of the top-level message A. -/
def c6nodeA : HNode := HNode.build none (.message "A" [] [])

/-- Context chain of the claim C6 counterexample: the environment of A. -/
def c6ctx : List HNode := [c6nodeA, hierarchyOf c6prog]

/-- Claim C7 witness program: three levels of message nesting A.B.C. -/
def c7prog : Program :=
  { src := "c7", package := none,
    types := [.message "A" [] [.message "B" [] [.message "C" [] []]]] }

/-- The node of A.B in the claim C7 witness. -/
def c7nodeB : HNode := HNode.build (some "A") (.message "B" [] [.message "C" [] []])

/-- The node of A.B.C in the claim C7 witness. -/
def c7nodeC : HNode := HNode.build (some "A_B") (.message "C" [] [])

/-- Claim C8 program: a message whose only field references the undeclared
type X. -/
def c8fields : List ProtoMessageField :=
  [{ modifier := none, fieldType := .identifier "X", name := "x", position := 1 }]

/-- Claim C8 program: message P with the dangling field. -/
def c8prog : Program :=
  { src := "bad", package := none, types := [.message "P" c8fields []] }

/-- Context chain of the claim C8 witness: the environment of P. -/
def c8ctx : List HNode := [HNode.build none (.message "P" c8fields []), hierarchyOf c8prog]

/-- Claim C9 witness: a program with the fooSchema declaration list. -/
def c9progA : Program := { src := "one", package := none, types := fooSchema.types }

/-- Claim C9 witness: a different source text and package, same declaration
list. -/
def c9progB : Program := { src := "two", package := some "pkg", types := fooSchema.types }

/-- Claim C10 witness program: a declaration literally named with a dotted
string. -/
def c10prog : Program :=
  { src := "c10", package := none, types := [.message "Foo.Bar" [] []] }

/-- Hierarchy head of the claim C10 witness. -/
def c10root : HNode := hierarchyOf c10prog

mutual
/-- The naming-policy invariant of a hierarchy node: every child's fully
qualified identifier is the default policy applied to this node's fully
qualified identifier and the child's local name, recursively. -/
def PolicyOK : HNode → Prop
  | .mk _ f cs =>
    (∀ c ∈ cs, ∃ t, HNode.protoTypeOf c = some t ∧
      HNode.fqnOf c = some (qualifyDefault f (ProtoType.getName t))) ∧ PolicyOKList cs
/-- The naming-policy invariant over a list of nodes. -/
def PolicyOKList : List HNode → Prop
  | [] => True
  | c :: cs => PolicyOK c ∧ PolicyOKList cs
end

/-! Helper lemmas. -/

/-- A child found by the scanning step is a child and carries the wanted
name. -/
theorem findChildNamed_eq_some {identifier : String} :
    ∀ {cs : List HNode} {c : HNode}, findChildNamed identifier cs = some c →
      c ∈ cs ∧ HNode.nameOf c = some identifier := by
  intro cs
  induction cs with
  | nil => intro c h; simp [findChildNamed] at h
  | cons c₀ cs ih =>
    intro c h
    by_cases hn : HNode.nameOf c₀ = some identifier
    · simp only [findChildNamed, if_pos hn, Option.some.injEq] at h
      subst h
      exact ⟨List.mem_cons_self c₀ cs, hn⟩
    · simp only [findChildNamed, if_neg hn] at h
      obtain ⟨hm, hname⟩ := ih h
      exact ⟨List.mem_cons_of_mem c₀ hm, hname⟩

/-- If some child carries the wanted name, the scanning step finds one. -/
theorem findChildNamed_isSome_of_mem {identifier : String} {cs : List HNode} {c : HNode}
    (hc : c ∈ cs) (hn : HNode.nameOf c = some identifier) :
    (findChildNamed identifier cs).isSome = true := by
  induction cs with
  | nil => simp at hc
  | cons c₀ cs ih =>
    by_cases h₀ : HNode.nameOf c₀ = some identifier
    · simp [findChildNamed, if_pos h₀]
    · rcases List.mem_cons.mp hc with h | h
      · subst h; exact absurd hn h₀
      · simpa [findChildNamed, if_neg h₀] using ih h

/-- Any successful run of the resolution loop returns a context whose head
node's local declaration name is exactly the identifier handed in. -/
theorem resolveRelativeToContext_head_name {identifier : String} :
    ∀ {ctx r : List HNode}, resolveRelativeToContext identifier ctx = some r →
      ∃ n, r.head? = some n ∧ HNode.nameOf n = some identifier := by
  intro ctx
  induction ctx with
  | nil => intro r h; simp [resolveRelativeToContext] at h
  | cons node up ih =>
    intro r h
    by_cases hn : HNode.nameOf node = some identifier
    · simp only [resolveRelativeToContext, if_pos hn, Option.some.injEq] at h
      subst h
      exact ⟨node, rfl, hn⟩
    · simp only [resolveRelativeToContext, if_neg hn] at h
      cases hfc : findChildNamed identifier (HNode.childrenOf node) with
      | none => rw [hfc] at h; exact ih h
      | some c =>
        rw [hfc] at h
        simp only [Option.some.injEq] at h
        obtain ⟨_, hcn⟩ := findChildNamed_eq_some hfc
        subst h
        exact ⟨c, rfl, hcn⟩

/-- The first list of the child fold of flush_queued_outputs_deep is the
concatenation of the children's deep flushes, in child order. -/
theorem flushDeepChildren_fst :
    ∀ cs : List EnvMod.GeneratorEnvironment,
      (EnvMod.flushDeepChildren cs).fst =
        (cs.map (fun c => (EnvMod.flushQueuedOutputsDeep c).fst)).flatten := by
  intro cs
  induction cs with
  | nil => rfl
  | cons c cs ih =>
    simp only [EnvMod.flushDeepChildren, List.map_cons, List.flatten_cons]
    rw [← ih]

/-! Claim theorems. -/

/-- C1: flush_deep on any environment tree returns exactly its own locally
flushed outputs followed, in child-creation order, by the recursive deep
flush of each child (a stable pre-order flattening); and on the schema
Foo containing Bar (containing enum Baz) and enum Qux the pipeline emits the
units Foo, Foo_Bar, Foo_Bar_Baz, Foo_Qux in that order (the Foo unit is
emitted directly by gen_code, the other three by flush_queued_ops_deep). -/
theorem flush_deep_preorder :
    (∀ e : EnvMod.GeneratorEnvironment,
        (EnvMod.flushQueuedOutputsDeep e).fst =
          (EnvMod.flushQueuedOutputs e).fst ++
            ((EnvMod.childrenOf e).map
              (fun c => (EnvMod.flushQueuedOutputsDeep c).fst)).flatten) ∧
    Dart.genCodeUnits 5 fooSchema = some [fooUnit1, fooUnit2, fooUnit3, fooUnit4] := by
  constructor
  · intro e
    cases e with
    | mk ctx q cs =>
      rcases hfc : EnvMod.flushDeepChildren cs with ⟨rs, cs₁⟩
      have hrs : rs = (cs.map (fun c => (EnvMod.flushQueuedOutputsDeep c).fst)).flatten := by
        rw [← flushDeepChildren_fst cs, hfc]
      simp only [EnvMod.flushQueuedOutputsDeep, hfc, EnvMod.flushQueuedOutputs,
        EnvMod.childrenOf, hrs]
  · decide

/-- C2 counterexample: an environment whose queue registered c2op1 before
c2op2 (queue_op push order A then B); flush_queued_ops of dart.rs returns
the outputs in the reverse order (op2's output first), not in FIFO
registration order. -/
theorem flush_local_fifo_cex :
    (Dart.queuedOpsOf c2env).map ProtoType.getName = ["A", "B"] ∧
    (Dart.flushQueuedOps c2root c2env).map Prod.fst = some [c2outOp2, c2outOp1] ∧
    ¬ (Dart.flushQueuedOps c2root c2env).map Prod.fst = some [c2outOp1, c2outOp2] := by
  decide

/-- C2 amended: flush_queued_outputs of env/mod.rs drains exactly its own
queue, returns the outputs in FIFO registration order, and leaves the queue
empty; flush_queued_ops of dart.rs also drains exactly its own queue to
empty, but pops ops from the back, so outputs come in LIFO (reverse
registration) order, as on the two-op environment c2env. -/
theorem flush_local_order :
    (∀ (ctx : List HNode) (q cs₀ : _) (l : List String),
        EnvMod.flushQueuedOutputs
            (List.foldl EnvMod.queueOutput (EnvMod.GeneratorEnvironment.mk ctx q cs₀) l) =
          (q ++ l, EnvMod.GeneratorEnvironment.mk ctx [] cs₀)) ∧
    (Dart.flushQueuedOps c2root c2env).map Prod.fst = some [c2outOp2, c2outOp1] ∧
    (Dart.flushQueuedOps c2root c2env).map
        (fun r => (Dart.queuedOpsOf r.snd).isEmpty) = some true := by
  refine ⟨?_, by decide, by decide⟩
  intro ctx q cs₀ l
  induction l generalizing q with
  | nil => simp [EnvMod.flushQueuedOutputs]
  | cons s l ih =>
    rw [List.foldl_cons]
    simpa [EnvMod.queueOutput] using ih (q ++ [s])

/-- C4: a single-segment path equal to a sibling's local name, resolved from
a nested scope whose own name and children do not match it, returns that
sibling (the first same-named child of the parent scope), whatever the
ancestor chain above the parent contains (nearest-scope-wins). -/
theorem resolve_nearest_sibling (X : String) (c₀ p₀ sib : HNode) (up : List HNode)
    (h₀ : HNode.nameOf c₀ ≠ some X)
    (h₁ : findChildNamed X (HNode.childrenOf c₀) = none)
    (h₂ : HNode.nameOf p₀ ≠ some X)
    (h₃ : findChildNamed X (HNode.childrenOf p₀) = some sib) :
    resolveRelativeToContext X (c₀ :: p₀ :: up) = some (sib :: p₀ :: up) ∧
    resolvedFqnOf (resolveRelativeToContext X (c₀ :: p₀ :: up)) = HNode.fqnOf sib := by
  have h : resolveRelativeToContext X (c₀ :: p₀ :: up) = some (sib :: p₀ :: up) := by
    simp [resolveRelativeToContext, if_neg h₀, if_neg h₂, h₁, h₃]
  exact ⟨h, by simp [resolvedFqnOf, h]⟩

/-- C4 witness: in c4prog, resolving B from inside A.C returns the nested
sibling A_B, even though the root scope also holds a distinct top-level
message named B (whose identifier is plain B). -/
theorem resolve_nearest_sibling_witness :
    (resolveRelativeToContext "B" c4ctx = some (c4nodeAB :: c4nodeA :: [hierarchyOf c4prog]) ∧
      resolvedFqnOf (resolveRelativeToContext "B" c4ctx) = HNode.fqnOf c4nodeAB) ∧
    HNode.fqnOf c4nodeAB = some "A_B" ∧
    (∃ c ∈ HNode.childrenOf (hierarchyOf c4prog),
      HNode.nameOf c = some "B" ∧ HNode.fqnOf c = some "B") :=
  ⟨resolve_nearest_sibling "B" c4nodeC c4nodeA c4nodeAB [hierarchyOf c4prog]
      (by decide) rfl (by decide) rfl,
    rfl, by decide⟩

/-- C5 counterexample: in c5prog, the context inside Foo.B resolves the
single segment Foo, which is the enclosing ancestor's own name and matches
no child of either node the walk visits, yet resolution succeeds and
returns Foo — the claim says it must fail. -/
theorem resolve_ancestor_own_name_cex :
    HNode.nameOf c5nodeFoo = some "Foo" ∧
    (findChildNamed "Foo" (HNode.childrenOf c5nodeB)).isNone = true ∧
    (findChildNamed "Foo" (HNode.childrenOf c5nodeFoo)).isNone = true ∧
    (resolveRelativeToContext "Foo" c5ctx).isSome = true ∧
    resolvedFqnOf (resolveRelativeToContext "Foo" c5ctx) = some "Foo" := by
  decide

/-- C5 amended: the upward walk checks each node's own declared name before
its direct children (env/mod.rs:109-110, dart.rs:229-230), so a
single-segment path equal to an enclosing ancestor's own name resolves to
that ancestor whenever the walk below it matches neither a name nor a
child. -/
theorem resolve_ancestor_own_name (X : String) (anc : HNode) (below up : List HNode)
    (hanc : HNode.nameOf anc = some X)
    (hb : ∀ n ∈ below, HNode.nameOf n ≠ some X ∧
        (findChildNamed X (HNode.childrenOf n)).isNone = true) :
    resolveRelativeToContext X (below ++ anc :: up) = some (anc :: up) := by
  induction below with
  | nil => simp [resolveRelativeToContext, if_pos hanc]
  | cons n below ih =>
    obtain ⟨hn, hfc⟩ := hb n (List.mem_cons_self n below)
    rw [Option.isNone_iff_eq_none] at hfc
    rw [List.cons_append]
    simp only [resolveRelativeToContext, if_neg hn, hfc]
    exact ih (fun m hm => hb m (List.mem_cons_of_mem n hm))

/-- C5 amended witness: resolving Foo from inside Foo.B returns the
enclosing Foo node itself. -/
theorem resolve_ancestor_own_name_witness :
    resolveRelativeToContext "Foo" ([c5nodeB] ++ c5nodeFoo :: [hierarchyOf c5prog]) =
      some (c5nodeFoo :: [hierarchyOf c5prog]) :=
  resolve_ancestor_own_name "Foo" c5nodeFoo [c5nodeB] [hierarchyOf c5prog]
    rfl (by decide)

/-- C6 counterexample: in c6prog the context of message A resolves the
two-segment path A.B; the first segment matches A, A has no children at
all, yet the second segment succeeds — by walking back up from A to the
root and matching the top-level B (identifier plain B), which is not a
descendant of A.  The claim says segments after the first match only
against the matched node's subtree. -/
theorem resolve_path_downward_cex :
    (HNode.childrenOf c6nodeA).isEmpty = true ∧
    resolvedFqnOf (EnvMod.resolveProtoTypeParts c6ctx ["A"]) = some "A" ∧
    (EnvMod.resolveProtoTypeParts c6ctx ["A", "B"]).isSome = true ∧
    resolvedFqnOf (EnvMod.resolveProtoTypeParts c6ctx ["A", "B"]) = some "B" := by
  decide

/-- C6 amended: every segment of a dotted path is resolved by the same
own-name/children/upward-walk procedure.  On a two-segment path the second
segment resolves relative to the node the first segment matched — including
that node's upward walk to ancestors, so the result may leave the matched
node's subtree (first conjunct).  A failed segment does not end resolution
cleanly either: the following segment turns the accumulator into the fold's
outer None and the segment after that restarts resolution from the original
context (second conjunct); only a failure that reaches the final
accumulator aborts at the unwrap. -/
theorem resolve_path_segments :
    (∀ (ctx : List HNode) (s₁ s₂ : String),
        EnvMod.resolveProtoTypeParts ctx [s₁, s₂] =
          (resolveRelativeToContext s₁ ctx).bind (resolveRelativeToContext s₂)) ∧
    (∀ (ctx : List HNode) (s₁ s₂ s₃ : String) (rest : List String),
        resolveRelativeToContext s₁ ctx = none →
        EnvMod.resolveProtoTypeParts ctx (s₁ :: s₂ :: s₃ :: rest) =
          EnvMod.resolveProtoTypeParts ctx (s₃ :: rest)) := by
  constructor
  · intro ctx s₁ s₂
    unfold EnvMod.resolveProtoTypeParts
    cases h : resolveRelativeToContext s₁ ctx with
    | none => simp [List.foldl_cons, resolveFoldStep, h]
    | some c => simp [List.foldl_cons, resolveFoldStep, h]
  · intro ctx s₁ s₂ s₃ rest h
    unfold EnvMod.resolveProtoTypeParts
    rw [List.foldl_cons, List.foldl_cons]
    simp [resolveFoldStep, h]

/-- C6 amended witness: in c6prog the segment X resolves nowhere, so the
path X.Y.B resolves exactly as the path B alone does — the fold restarts
from the original context and returns the top-level B. -/
theorem resolve_path_segments_witness :
    resolveRelativeToContext "X" c6ctx = none ∧
    EnvMod.resolveProtoTypeParts c6ctx ["X", "Y", "B"] =
      EnvMod.resolveProtoTypeParts c6ctx ["B"] ∧
    resolvedFqnOf (EnvMod.resolveProtoTypeParts c6ctx ["X", "Y", "B"]) = some "B" :=
  ⟨rfl, resolve_path_segments.2 c6ctx "X" "Y" "B" [] rfl, by decide⟩

/-- C10: the dart.rs environment resolver hands the whole identifier string,
dots included, to the name comparison: a successful resolution always
returns a node whose local declaration name is literally the identifier
(so a dotted path resolves only if some declaration is literally named with
the dotted string), and when resolution fails, resolve_identifier fails the
run (the Rust code panics, modelled as none). -/
theorem dart_resolution_never_splits :
    (∀ (identifier : String) (ctx r : List HNode),
        Dart.resolveProtoType ctx identifier = some r →
        ∃ n, r.head? = some n ∧ HNode.nameOf n = some identifier) ∧
    (∀ (ctx : List HNode) (identifier : String),
        Dart.resolveProtoType ctx identifier = none →
        Dart.resolveIdentifier ctx identifier = none) := by
  constructor
  · intro identifier ctx r h
    exact resolveRelativeToContext_head_name h
  · intro ctx identifier h
    simp [Dart.resolveIdentifier, resolvedFqnOf, h]

/-- C10 witness: the dotted identifier Foo.Bar resolves in c10prog, whose
sole declaration is literally named Foo.Bar, and the resolved node's local
name is the whole dotted string. -/
theorem dart_resolution_never_splits_witness :
    ∃ n, ([HNode.build none (.message "Foo.Bar" [] []), c10root] : List HNode).head? = some n ∧
      HNode.nameOf n = some "Foo.Bar" :=
  dart_resolution_never_splits.1 "Foo.Bar" [c10root]
    [HNode.build none (.message "Foo.Bar" [] []), c10root] rfl

/-- The node stored at a given index of a built node list. -/
theorem buildList_get? (pf : Option String) :
    ∀ (ts : List ProtoType) (i : Nat) (t : ProtoType), ts.get? i = some t →
      (HNode.buildList pf ts).get? i = some (HNode.build pf t) := by
  intro ts
  induction ts with
  | nil => intro i t h; simp at h
  | cons t₀ ts ih =>
    intro i t h
    cases i with
    | zero => simp at h; simp [HNode.buildList, h]
    | succ i => simpa [HNode.buildList] using ih i t (by simpa using h)

/-- The declaration stored at a built node. -/
theorem build_protoTypeOf (pf : Option String) (t : ProtoType) :
    HNode.protoTypeOf (HNode.build pf t) = some t := by
  cases t <;> rfl

/-- The local name of a built node. -/
theorem build_nameOf (pf : Option String) (t : ProtoType) :
    HNode.nameOf (HNode.build pf t) = some (ProtoType.getName t) := by
  cases t <;> rfl

/-- The fully qualified identifier of a built node is the default policy
applied to the parent identifier and the local name. -/
theorem build_fqnOf (pf : Option String) (t : ProtoType) :
    HNode.fqnOf (HNode.build pf t) = some (qualifyDefault pf (ProtoType.getName t)) := by
  cases t <;> rfl

/-- Every node of a built list satisfies the local naming-policy shape. -/
theorem buildList_localOK (pf : Option String) (ts : List ProtoType) :
    ∀ c ∈ HNode.buildList pf ts, ∃ t, HNode.protoTypeOf c = some t ∧
      HNode.fqnOf c = some (qualifyDefault pf (ProtoType.getName t)) := by
  induction ts with
  | nil => intro c hc; simp [HNode.buildList] at hc
  | cons t₀ ts ih =>
    intro c hc
    rcases List.mem_cons.mp hc with h | h
    · subst h; exact ⟨t₀, build_protoTypeOf pf t₀, build_fqnOf pf t₀⟩
    · exact ih c h

mutual
/-- Hierarchy construction establishes the naming-policy invariant. -/
theorem build_policyOK (pf : Option String) (t : ProtoType) :
    PolicyOK (HNode.build pf t) := by
  cases t with
  | message n fs ts =>
    exact ⟨buildList_localOK (some (qualifyDefault pf n)) ts,
      buildList_policyOKList (some (qualifyDefault pf n)) ts⟩
  | enum n vs => exact ⟨by simp [HNode.childrenOf], trivial⟩
/-- Hierarchy construction establishes the invariant on node lists. -/
theorem buildList_policyOKList (pf : Option String) (ts : List ProtoType) :
    PolicyOKList (HNode.buildList pf ts) := by
  cases ts with
  | nil => trivial
  | cons t ts => exact ⟨build_policyOK pf t, buildList_policyOKList pf ts⟩
end

/-- The naming-policy invariant of a whole hierarchy. -/
theorem hierarchy_policyOK (prog : Program) : PolicyOK (hierarchyOf prog) :=
  ⟨buildList_localOK none prog.types, buildList_policyOKList none prog.types⟩

/-- Members of a policy-sound list are policy-sound. -/
theorem policyOKList_mem : ∀ {cs : List HNode}, PolicyOKList cs →
    ∀ {c : HNode}, c ∈ cs → PolicyOK c := by
  intro cs
  induction cs with
  | nil => intro _ c hc; simp at hc
  | cons c₀ cs ih =>
    intro h c hc
    rcases List.mem_cons.mp hc with hh | hh
    · subst hh; exact h.1
    · exact ih h.2 hh

/-- The naming-policy invariant descends to every reachable node. -/
theorem policyOK_nodeAt : ∀ (p : List Nat) {n m : HNode}, PolicyOK n →
    nodeAt n p = some m → PolicyOK m := by
  intro p
  induction p with
  | nil =>
    intro n m h hm
    simp only [nodeAt, Option.some.injEq] at hm
    subst hm; exact h
  | cons i p ih =>
    intro n m h hm
    simp only [nodeAt] at hm
    cases hg : (HNode.childrenOf n).get? i with
    | none => rw [hg] at hm; simp at hm
    | some c =>
      rw [hg] at hm
      have hc : PolicyOK c := by
        cases n with
        | mk pt f cs => exact policyOKList_mem h.2 (List.get?_mem hg)
      exact ih hc hm

/-- Descending along an extended path is descending, then one child step. -/
theorem nodeAt_snoc : ∀ (p : List Nat) (n : HNode) (i : Nat),
    nodeAt n (p ++ [i]) = (nodeAt n p).bind (fun m => (HNode.childrenOf m).get? i) := by
  intro p
  induction p with
  | nil =>
    intro n i
    rw [List.nil_append]
    cases hg : (HNode.childrenOf n).get? i with
    | none => simp only [nodeAt, hg, Option.some_bind]
    | some c => simp only [nodeAt, hg, Option.some_bind]
  | cons j p ih =>
    intro n i
    simp only [List.cons_append, nodeAt]
    cases (HNode.childrenOf n).get? j with
    | none => rfl
    | some c => exact ih c i

/-- A chain reached by descending from a chain is a chain. -/
theorem chainOf_isChainTo {root : HNode} :
    ∀ (p : List Nat) (n : HNode) (up ctx : List HNode), IsChainTo root (n :: up) →
      chainOf n up p = some ctx → IsChainTo root ctx := by
  intro p
  induction p with
  | nil =>
    intro n up ctx hc h
    simp only [chainOf, Option.some.injEq] at h
    rw [← h]; exact hc
  | cons i p ih =>
    intro n up ctx hc h
    simp only [chainOf] at h
    cases hg : (HNode.childrenOf n).get? i with
    | none => rw [hg] at h; simp at h
    | some c =>
      rw [hg] at h
      exact ih c (n :: up) ctx ⟨List.get?_mem hg, hc⟩ h

/-- The resolution walk, on a chain context free of shadowing, reaches a
top-level declaration named like the identifier: if the root has a child
with the wanted name, and every same-named child visible anywhere along the
chain carries the fully qualified identifier `dfqn`, the walk resolves to a
node whose identifier is `dfqn`. -/
theorem resolveRel_top_level (root : HNode) (dname dfqn : String)
    (hroot : HNode.nameOf root = none)
    (hex : ∃ c ∈ HNode.childrenOf root, HNode.nameOf c = some dname) :
    ∀ ctx : List HNode, IsChainTo root ctx →
      (∀ n ∈ ctx, ∀ c ∈ HNode.childrenOf n, HNode.nameOf c = some dname →
        HNode.fqnOf c = some dfqn) →
      resolvedFqnOf (resolveRelativeToContext dname ctx) = some dfqn := by
  intro ctx
  induction ctx with
  | nil => intro hc _; exact absurd hc (by simp [IsChainTo])
  | cons node rest ih =>
    intro hc hns
    by_cases hn : HNode.nameOf node = some dname
    · cases rest with
      | nil =>
        have hnode : node = root := by simpa [IsChainTo] using hc
        rw [hnode, hroot] at hn
        exact absurd hn (by simp)
      | cons m rest₂ =>
        have hmem : node ∈ HNode.childrenOf m := hc.1
        have hfqn := hns m (by simp) node hmem hn
        simp [resolveRelativeToContext, if_pos hn, resolvedFqnOf, hfqn]
    · cases hfc : findChildNamed dname (HNode.childrenOf node) with
      | some c =>
        obtain ⟨hcm, hcn⟩ := findChildNamed_eq_some hfc
        have hfqn := hns node (by simp) c hcm hcn
        simp [resolveRelativeToContext, if_neg hn, hfc, resolvedFqnOf, hfqn]
      | none =>
        cases rest with
        | nil =>
          have hnode : node = root := by simpa [IsChainTo] using hc
          obtain ⟨c, hcm, hcn⟩ := hex
          have hs := findChildNamed_isSome_of_mem (hnode ▸ hcm) hcn
          rw [hfc] at hs
          exact absurd hs (by simp)
        | cons m rest₂ =>
          have := ih hc.2 (fun n hn₂ c hcc hcn => hns n (List.mem_cons_of_mem _ hn₂) c hcc hcn)
          simpa [resolveRelativeToContext, if_neg hn, hfc] using this

/-- C3: a top-level declaration D of the program resolves from any context
chain of the hierarchy by the single-segment path of its name, yielding D's
fully qualified identifier (which, at top level under the default policy,
is D's local name), provided no scope along the walk to the root exposes a
same-named declaration other than D itself (the no-shadowing hypothesis is
stated as: every same-named child visible on the chain already carries D's
top-level identifier). -/
theorem resolve_top_level_declaration (prog : Program) (i : Nat) (D : ProtoType)
    (p : List Nat) (ctx : List HNode)
    (hD : prog.types.get? i = some D)
    (hctx : chainOf (hierarchyOf prog) [] p = some ctx)
    (hns : ∀ n ∈ ctx, ∀ c ∈ HNode.childrenOf n,
        HNode.nameOf c = some (ProtoType.getName D) →
        HNode.fqnOf c = some (ProtoType.getName D)) :
    resolvedFqnOf (EnvMod.resolveProtoTypeParts ctx [ProtoType.getName D]) =
      some (ProtoType.getName D) := by
  have hsingle : EnvMod.resolveProtoTypeParts ctx [ProtoType.getName D] =
      resolveRelativeToContext (ProtoType.getName D) ctx := rfl
  rw [hsingle]
  have hchain : IsChainTo (hierarchyOf prog) ctx :=
    chainOf_isChainTo p (hierarchyOf prog) [] ctx (by simp [IsChainTo]) hctx
  refine resolveRel_top_level (hierarchyOf prog) (ProtoType.getName D)
    (ProtoType.getName D) rfl ?_ ctx hchain hns
  refine ⟨HNode.build none D, ?_, build_nameOf none D⟩
  exact List.get?_mem (buildList_get? none prog.types i D hD)

/-- C3 witness: in c3prog, the top-level enum Top resolves from the context
of the doubly nested message Foo.Bar.Inner and yields the identifier Top. -/
theorem resolve_top_level_declaration_witness :
    resolvedFqnOf (EnvMod.resolveProtoTypeParts c3ctx ["Top"]) = some "Top" :=
  resolve_top_level_declaration c3prog 1 (.enum "Top" []) [0, 0, 0] c3ctx rfl rfl
    (by decide)

/-- C7: the synthetic root of every hierarchy has no fully qualified
identifier, and every child node's identifier is the default naming policy
applied to its parent's identifier and its own local declaration name. -/
theorem fqn_naming_policy (prog : Program) (p : List Nat) (i : Nat)
    (parent child : HNode) :
    HNode.fqnOf (hierarchyOf prog) = none ∧
    (nodeAt (hierarchyOf prog) p = some parent →
      nodeAt (hierarchyOf prog) (p ++ [i]) = some child →
      ∃ t, HNode.protoTypeOf child = some t ∧
        HNode.fqnOf child = some (qualifyDefault (HNode.fqnOf parent) (ProtoType.getName t))) := by
  refine ⟨rfl, fun hp hc => ?_⟩
  rw [nodeAt_snoc, hp] at hc
  simp only [Option.some_bind] at hc
  have hpo : PolicyOK parent := policyOK_nodeAt p (hierarchy_policyOK prog) hp
  cases parent with
  | mk pt f cs => exact hpo.1 child (List.get?_mem hc)

/-- C7 witness: in the three-level nesting A containing B containing C, the
innermost node's identifier is the policy applied to A_B and C, that is
A_B_C, the concatenation of all ancestor local names outer-to-inner; and the
root has no identifier. -/
theorem fqn_naming_policy_witness :
    (∃ t, HNode.protoTypeOf c7nodeC = some t ∧
      HNode.fqnOf c7nodeC = some (qualifyDefault (HNode.fqnOf c7nodeB) (ProtoType.getName t))) ∧
    HNode.fqnOf c7nodeC = some "A_B_C" ∧
    HNode.fqnOf (hierarchyOf c7prog) = none :=
  ⟨(fqn_naming_policy c7prog [0, 0] 0 c7nodeB c7nodeC).2 rfl rfl, rfl,
    (fqn_naming_policy c7prog [0, 0] 0 c7nodeB c7nodeC).1⟩

/-- A message whose field list contains a field with an unresolvable type
generates no field lines. -/
theorem genFieldLines_none (ctx : List HNode) (indent : Nat) :
    ∀ fields : List ProtoMessageField,
      (∃ f ∈ fields, Dart.getDartType ctx f.fieldType = none) →
      Dart.genFieldLines ctx indent fields = none := by
  intro fields
  induction fields with
  | nil => intro h; obtain ⟨f, hf, _⟩ := h; simp at hf
  | cons f fs ih =>
    intro h
    obtain ⟨g, hg, hgn⟩ := h
    rcases List.mem_cons.mp hg with hh | hh
    · subst hh; simp [Dart.genFieldLines, Dart.genMessageField, hgn]
    · cases hmf : Dart.genMessageField ctx f (indent + 1) with
      | none => simp [Dart.genFieldLines, hmf]
      | some s => simp [Dart.genFieldLines, hmf, ih ⟨g, hh, hgn⟩]

/-- C8: an identifier path that does not resolve fails the whole generation
run (the Rust code panics in resolve_identifier, modelled as none, and that
none propagates): a message containing any unresolvable field generates
none rather than a partial body, and on the program c8prog, whose only
field references the undeclared type X, the whole pipeline produces none —
no partial unit list and no partial output string. -/
theorem unresolved_reference_fatal :
    (∀ (root : HNode) (fields : List ProtoMessageField) (types : List ProtoType)
        (ctx : List HNode) (ops : List ProtoType) (cs : List Dart.GenEnv) (indent : Nat),
        (∃ f ∈ fields, Dart.getDartType ctx f.fieldType = none) →
        Dart.genMessage root fields types (Dart.GenEnv.mk ctx ops cs) indent = none) ∧
    Dart.genCodeUnits 5 c8prog = none ∧ Dart.genCode 5 c8prog = none := by
  refine ⟨?_, by decide, by decide⟩
  intro root fields types ctx ops cs indent hex
  unfold Dart.genMessage
  cases hq : Dart.getFullyQualifiedIdentifier (Dart.GenEnv.mk ctx ops cs) with
  | none => simp [hq]
  | some nm => simp [hq, Dart.typeContextOf, genFieldLines_none ctx indent fields hex]

/-- C8 witness: generating the message P of c8prog (whose field type X is
unresolvable from P's context) yields none. -/
theorem unresolved_reference_fatal_witness :
    Dart.genMessage (hierarchyOf c8prog) c8fields [] (Dart.GenEnv.mk c8ctx [] []) 0 = none :=
  unresolved_reference_fatal.1 (hierarchyOf c8prog) c8fields [] c8ctx [] [] 0 (by decide)

/-- C9: the pipeline is a pure function of the parsed declaration list: two
programs with the same declaration list (whatever their source text or
package) generate identical unit sequences and identical joined output; in
particular two runs on the same program are byte-identical, and the
relative order of flattened units is the same on every run. -/
theorem pipeline_deterministic (p₁ p₂ : Program) (fuel : Nat)
    (h : p₁.types = p₂.types) :
    Dart.genCodeUnits fuel p₁ = Dart.genCodeUnits fuel p₂ ∧
    Dart.genCode fuel p₁ = Dart.genCode fuel p₂ := by
  have hu : Dart.genCodeUnits fuel p₁ = Dart.genCodeUnits fuel p₂ := by
    unfold Dart.genCodeUnits hierarchyOf
    rw [h]
  exact ⟨hu, by unfold Dart.genCode; rw [hu]⟩

/-- C9 witness: c9progA and c9progB differ in source text and package but
share the declaration list, and generate identical output. -/
theorem pipeline_deterministic_witness :
    Dart.genCodeUnits 5 c9progA = Dart.genCodeUnits 5 c9progB ∧
    Dart.genCode 5 c9progA = Dart.genCode 5 c9progB :=
  pipeline_deterministic c9progA c9progB 5 rfl

end RsProto
